import Mathlib

/-!
Shallow embedding of the deploy-everything registry, module resolver,
execution driver and inspection utilities of `src/deployments.js`
(hardhat-deploy-everything).

File-system reads, `require()` and the external ignition engine are
modelled as explicit capability parameters: a read that can fail is an
`Option`/`Except` value, `require` is a function from a path to the
optionally loaded module, and the engine is a function from a module to
an `Except`.  Thrown JS exceptions become `Except.error` values.
Everything else is translated directly from the JavaScript source.
-/

/-- A registered module descriptor: one element of the `contents` array of
the persisted `ignition/deploy-everything.json` manifest (`{filename, external}`). -/
structure Entry where
  filename : String
  external : Bool
deriving DecidableEq, Repr

/-- The deploy-everything settings document: a JSON object with a `contents`
array (the registry, in insertion order). -/
structure Settings where
  contents : List Entry
deriving DecidableEq, Repr

/-- Result of `normalizeByProjectPrefix` (defined in `src/common.js`, used by
`deployments.js`): whether the project prefix was stripped, and the resulting
root-relative file. -/
structure NormalizeResult where
  stripped : Bool
  file : String
deriving DecidableEq, Repr

/-- The ambient capabilities that `addDeployEverythingModule` and
`removeDeployEverythingModule` read from the hardhat runtime environment:
the project root (`getProjectPrefix hre`), whether `require(p)` succeeds for
a path `p`, and the path normalizer `normalizeByProjectPrefix` from
`src/common.js`.  They are opaque to the registry logic under verification. -/
structure Env where
  projectRoot : String
  canRequire : String → Bool
  normalize : String → NormalizeResult

/-- A future declared by an ignition module: only its `id` field is read
(`deployments.js` line 125). -/
structure Future where
  id : String
deriving DecidableEq, Repr

/-- A loaded ignition module: `module.results` may be absent (`none`), matching
the `module.results \x7c\x7c \x7b\x7d` guard on line 125; `Object.values` order is the
list order. -/
structure IgnitionModule where
  results : Option (List Future)
deriving DecidableEq, Repr

/-- One element of the array produced by `listDeployEverythingModules`. -/
structure ListedModule where
  filename : String
  external : Bool
  moduleResults : List String
deriving DecidableEq, Repr

/-- Translation of `loadDeployEverythingSettings` (lines 12-24): reading the
manifest file may fail (`readResult = none`), and `JSON.parse` may fail
(`parse content = none`); either exception is caught and yields
`{contents: []}`. -/
def loadDeployEverythingSettings (readResult : Option String)
    (parse : String → Option Settings) : Settings :=
  match readResult with
  | none => ⟨[]⟩
  | some content =>
    match parse content with
    | none => ⟨[]⟩
    | some s => s

/-- The duplicate test of line 86-88: whether `contents` already holds an
entry with the given stored module name and external flag. -/
def hasModuleKey (contents : List Entry) (moduleName : String) (external : Bool) : Bool :=
  contents.any fun e => e.filename == moduleName && e.external == external

/-- Translation of lines 84-90 of `addDeployEverythingModule`: check absence
of the identity key, then append and save.  `moduleName` is the stored module
path computed by the validation part, `file` the user-supplied path used in
the error message.  The saved settings are the `Except.ok` payload; an error
is thrown before `saveDeployEverythingSettings` runs, so on `Except.error`
nothing is persisted. -/
def addModuleToSettings (settings : Settings) (moduleName : String) (external : Bool)
    (file : String) : Except String Settings :=
  if hasModuleKey settings.contents moduleName external then
    Except.error ("The module is already added to the full deployment: " ++ file ++ ".")
  else
    Except.ok ⟨settings.contents ++ [⟨moduleName, external⟩]⟩

/-- Translation of the JS test `file.startsWith("/")` on line 54: whether the
first character is the path-root marker. -/
def startsWithSlash (s : String) : Bool :=
  match s.data with
  | [] => false
  | c :: _ => c = '/'

/-- Translation of `addDeployEverythingModule` (lines 48-91).  The loaded
settings are passed explicitly (the JS body loads them from the manifest
file); the `Except.ok` payload is what `saveDeployEverythingSettings`
persists. -/
def addDeployEverythingModule (env : Env) (settings : Settings) (file : String)
    (external : Bool) : Except String Settings :=
  if external then
    if startsWithSlash file then
      Except.error ("The module starts with / (this is forbidden): " ++ file ++ ".")
    else if !env.canRequire file then
      Except.error ("Could not require() the external file: " ++ file ++ ".")
    else
      addModuleToSettings settings file external file
  else
    let normalized := env.normalize file
    if !normalized.stripped then
      Except.error ("The module does not belong to the project: " ++ file)
    else if !env.canRequire (env.projectRoot ++ "/" ++ normalized.file) then
      Except.error ("Could not require() the project file: " ++ file ++ ".")
    else
      addModuleToSettings settings normalized.file external file

/-- The stored identity key a path denotes, as computed on line 101 (and
identically by the validation part of `add`): external paths are taken as-is,
project paths are normalized. -/
def moduleKeyOf (env : Env) (file : String) (external : Bool) : String :=
  if external then file else (env.normalize file).file

/-- Whether the validation part of `addDeployEverythingModule` (lines 49-81)
passes, so that control reaches the registry step of lines 84-90. -/
def addValidationOk (env : Env) (file : String) (external : Bool) : Bool :=
  if external then
    !startsWithSlash file && env.canRequire file
  else
    (env.normalize file).stripped &&
      env.canRequire (env.projectRoot ++ "/" ++ (env.normalize file).file)

/-- Translation of `removeDeployEverythingModule` (lines 99-112).  The JS
`find` + `filter(e => e !== element)` pair removes exactly the first entry
matching the identity key (comparison is by object reference, and `find`
returns the first match), i.e. `eraseIdx` at the first matching index. -/
def removeDeployEverythingModule (env : Env) (settings : Settings) (file : String)
    (external : Bool) : Except String Settings :=
  let moduleName := moduleKeyOf env file external
  match settings.contents.findIdx? (fun e => e.filename == moduleName && e.external == external) with
  | none => Except.error ("The module is not added to the full deployment: " ++ file ++ ".")
  | some i => Except.ok ⟨settings.contents.eraseIdx i⟩

/-- Translation of JS `filename.split(".")` (line 139) at the character-list
level: split on every dot of the whole string; splitting the empty string
yields `[[]]`, like `"".split(".")` yields `[""]`. -/
def jsSplitDot : List Char → List (List Char)
  | [] => [[]]
  | c :: rest =>
    if c = '.' then [] :: jsSplitDot rest
    else
      match jsSplitDot rest with
      | [] => [[c]]
      | h :: t => (c :: h) :: t

/-- Translation of JS `parts.join(".")` (line 141) at the character-list
level. -/
def joinDot : List (List Char) → List Char
  | [] => []
  | [s] => s
  | s :: rest => s ++ '.' :: joinDot rest

/-- Translation of `addChainId` (lines 138-142): split the whole filename on
dots, pop the last part as the extension, and interpolate
`` `$\x7bparts.join(".")\x7d-$\x7bchainId\x7d.$\x7bextension\x7d` ``. -/
def addChainId (filename : String) (chainId : Nat) : String :=
  let parts := jsSplitDot filename.data
  let extension := parts.getLastD []
  let rest := parts.dropLast
  String.mk (joinDot rest) ++ "-" ++ toString chainId ++ "." ++ String.mk extension

/-- The path handed to `require` on the first attempt of `importModule`
(lines 154-156): the chain-qualified variant, resolved against the project
root for in-project modules (`resolve` stands for
`fun f => path.resolve(hre.config.paths.root, f)`). -/
def chainVariantTarget (resolve : String → String) (filename : String) (external : Bool)
    (chainId : Nat) : String :=
  if external then addChainId filename chainId else addChainId (resolve filename) chainId

/-- The path handed to `require` on the second attempt of `importModule`
(lines 162-164): the base path, resolved the same way. -/
def baseTarget (resolve : String → String) (filename : String) (external : Bool) : String :=
  if external then filename else resolve filename

/-- The error message thrown on line 166 when both attempts fail. -/
def importErrorMessage (filename : String) (external : Bool) : String :=
  "Could not import the " ++ (if external then "external" else "in-project") ++
    " module: " ++ filename ++ "."

/-- Translation of `importModule` (lines 152-168): try the chain-qualified
variant, on any failure try the base path the same way, on a second failure
throw a single error naming the path and the external/in-project treatment.
`requireF` is the `require` capability: `none` models any load failure
(not found, syntax error, ...). -/
def importModule (requireF : String → Option IgnitionModule) (resolve : String → String)
    (filename : String) (external : Bool) (chainId : Nat) : Except String IgnitionModule :=
  match requireF (chainVariantTarget resolve filename external chainId) with
  | some m => Except.ok m
  | none =>
    match requireF (baseTarget resolve filename external) with
    | some m => Except.ok m
    | none => Except.error (importErrorMessage filename external)

/-- Translation of the per-entry body of `listDeployEverythingModules`
(lines 121-128): try to import, catch any failure into an empty result
list, and report `{filename, external, moduleResults}`. -/
def listedEntry (requireF : String → Option IgnitionModule) (resolve : String → String)
    (chainId : Nat) (e : Entry) : ListedModule :=
  let moduleResults :=
    match importModule requireF resolve e.filename e.external chainId with
    | Except.ok m => (m.results.getD []).map Future.id
    | Except.error _ => []
  ⟨e.filename, e.external, moduleResults⟩

/-- Translation of `listDeployEverythingModules` (lines 119-130): map the
per-entry body over the loaded contents, in order.  No save occurs (the
registry is never mutated) and the function is total: a failing entry
surfaces with `moduleResults = []`. -/
def listDeployEverythingModules (requireF : String → Option IgnitionModule)
    (resolve : String → String) (settings : Settings) (chainId : Nat) : List ListedModule :=
  settings.contents.map (listedEntry requireF resolve chainId)

/-- An observable call to the external ignition engine made by
`runDeployEverythingModules`: the journal reset of line 180 or the
`hre.ignition.deploy` call of line 183 for a loaded module. -/
inductive EngineEvent where
  | reset
  | deploy (m : IgnitionModule)
deriving DecidableEq, Repr

/-- The `for` loop of lines 182-184: each iteration imports the module
(a throw aborts before its deploy call) and then awaits the engine.  The
returned trace lists the engine calls in program order; the `Option String`
is the propagated error, `none` on full completion.  The recursion models the
strict sequencing: the recursive call only happens after the engine call for
the current module returned successfully. -/
def runModulesLoop (requireF : String → Option IgnitionModule) (resolve : String → String)
    (chainId : Nat) (engine : IgnitionModule → Except String Unit) :
    List ListedModule → List EngineEvent × Option String
  | [] => ([], none)
  | e :: rest =>
    match importModule requireF resolve e.filename e.external chainId with
    | Except.error msg => ([], some msg)
    | Except.ok m =>
      match engine m with
      | Except.error msg => ([EngineEvent.deploy m], some msg)
      | Except.ok _ =>
        let r := runModulesLoop requireF resolve chainId engine rest
        (EngineEvent.deploy m :: r.1, r.2)

/-- Translation of `runDeployEverythingModules` (lines 177-185): list the
registry, issue the journal reset first when the flag is set (line 180),
then run the loop.  The first component is the trace of engine calls in
program order. -/
def runDeployEverythingModules (requireF : String → Option IgnitionModule)
    (resolve : String → String) (settings : Settings) (chainId : Nat) (reset : Bool)
    (engine : IgnitionModule → Except String Unit) : List EngineEvent × Option String :=
  let modules := listDeployEverythingModules requireF resolve settings chainId
  let pre : List EngineEvent := if reset then [EngineEvent.reset] else []
  let r := runModulesLoop requireF resolve chainId engine modules
  (pre ++ r.1, r.2)

/-- A thrown JS value: either a `new Error(msg)` or a runtime `TypeError`
(carrying the text it complains about). -/
inductive JsThrow where
  | errObj (msg : String)
  | typeErr (msg : String)
deriving DecidableEq, Repr

/-- Translation of `deploymentId \x7c\x7c= ` ++ "`chain-${chainId}`" ++ ` `
(lines 213 and 269): a missing or empty deployment id falls back to the
chain-derived one. -/
def jsDefaultDeploymentId (deploymentId : Option String) (chainId : Nat) : String :=
  match deploymentId with
  | none => "chain-" ++ toString chainId
  | some s => if s = "" then "chain-" ++ toString chainId else s

/-- Translation of `listDeployedContracts` (lines 210-220): read and parse the
per-deployment `deployed_addresses.json` (the `readAddrs` capability, keyed by
the resolved deployment id, models `fs.readFileSync` + `JSON.parse`; its error
is the thrown exception) with no try/catch, so a failure propagates; on
success return the object keys in order. -/
def listDeployedContracts (readAddrs : String → Except String (List (String × String)))
    (chainId : Nat) (deploymentId : Option String) : Except String (List String) :=
  let did := jsDefaultDeploymentId deploymentId chainId
  match readAddrs did with
  | Except.error e => Except.error e
  | Except.ok addrs => Except.ok (addrs.map Prod.fst)

/-- JS object property lookup on a parsed JSON object, keys in document
order (assumed unique, as produced by the ignition engine). -/
def jsLookup (assoc : List (String × String)) (key : String) : Option String :=
  match assoc.find? (fun p => p.1 == key) with
  | none => none
  | some p => some p.2

/-- A parsed per-contract artifact document: only its `abi` array is read;
`none` models an absent `abi` property (in particular the `\x7b\x7d` fallback after
a failed read on lines 291-297).  Abi entries are opaque. -/
structure Artifact where
  abi : Option (List String)
deriving DecidableEq, Repr

/-- The value `hre.ethers.getContractAt(abi, address)` is called with on
line 310; constructing the handle itself is the job of the external provider. -/
structure ContractHandle where
  abi : List String
  address : String
deriving DecidableEq, Repr

/-- The message of the error thrown on lines 283-287 when no address is
recorded for the contract id. -/
def notDeployedMessage (contractId : String) (deploymentId : String) : String :=
  "It seems that the contract " ++ contractId ++ " is not deployed in the " ++
    "deployment id " ++ deploymentId ++ ". Ensure the deployment is actually " ++
    "done for that contract."

/-- The first of the five juxtaposed template literals on lines 301-305, as
evaluated before the thrown `TypeError` (see `getDeployedContract`). -/
def corruptedChunk (contractId : String) : String :=
  "The contract data for the contract id " ++ contractId ++ " in the deployment "

/-- Translation of `getDeployedContract` (lines 266-311).  The
`deployed_addresses.json` read is wrapped in try/catch (lines 272-278), so a
failure silently leaves the address map empty; the artifact read is likewise
caught (lines 291-297), leaving `abi` absent.  A missing or empty (JS-falsy)
address throws the not-deployed `Error`.  On a missing or empty abi, lines
300-306 juxtapose five template literals with no `+`/concatenation between
them: JavaScript parses that as a chain of tagged-template calls whose tag is
the first chunk - a string - so evaluating the argument of `new Error(...)`
throws `TypeError` (string is not a function) and the intended corrupted-data
`Error` is never constructed.  We model that thrown value as
`JsThrow.typeErr` carrying the evaluated first chunk. -/
def getDeployedContract (readAddrs : String → Except String (List (String × String)))
    (readArt : String → String → Except String Artifact) (chainId : Nat)
    (deploymentId : Option String) (contractId : String) : Except JsThrow ContractHandle :=
  let did := jsDefaultDeploymentId deploymentId chainId
  let addresses :=
    match readAddrs did with
    | Except.ok a => a
    | Except.error _ => []
  match jsLookup addresses contractId with
  | none => Except.error (JsThrow.errObj (notDeployedMessage contractId did))
  | some address =>
    if address = "" then Except.error (JsThrow.errObj (notDeployedMessage contractId did))
    else
      let artifact :=
        match readArt did contractId with
        | Except.ok a => a
        | Except.error _ => ⟨none⟩
      match artifact.abi with
      | none => Except.error (JsThrow.typeErr (corruptedChunk contractId))
      | some abi =>
        if abi = [] then Except.error (JsThrow.typeErr (corruptedChunk contractId))
        else Except.ok ⟨abi, address⟩

/-- Concrete `require` capability used by the evaluation witnesses: one
module with a chain-137 variant, one with only a base file, everything else
unloadable. -/
def reqFix : String → Option IgnitionModule :=
  fun s =>
    if s = "/proj/ignition/modules/Mod-137.js" then some ⟨some [⟨"A"⟩]⟩
    else if s = "/proj/ignition/modules/Mod.js" then some ⟨some [⟨"B"⟩]⟩
    else if s = "/proj/ignition/modules/Base.js" then some ⟨some [⟨"C"⟩]⟩
    else none

/-- Concrete project-root resolver used by the evaluation witnesses, standing
for `path.resolve("/proj", filename)`. -/
def resolveFix : String → String := fun f => "/proj/" ++ f

/-- Concrete environment used by the evaluation witnesses: external paths
normalize to themselves and every import succeeds. -/
def envFix : Env :=
  { projectRoot := "/proj"
    canRequire := fun _ => true
    normalize := fun f => ⟨true, f⟩ }

/-- Concrete deployed-addresses capability for the witnesses: the deployment
id `dep` has three contracts recorded, any other id fails to read. -/
def addrFix : String → Except String (List (String × String)) :=
  fun did =>
    if did = "dep" then
      Except.ok [("Good", "0xabc"), ("Broken", "0xdef"), ("EmptyAbi", "0x123")]
    else Except.error ("ENOENT: no such file or directory")

/-- Concrete artifact capability for the witnesses: `Good` has a one-entry
abi, `EmptyAbi` an empty one, everything else fails to read. -/
def artFix : String → String → Except String Artifact :=
  fun did cid =>
    if did = "dep" && cid = "Good" then Except.ok ⟨some ["functionEntry"]⟩
    else if did = "dep" && cid = "EmptyAbi" then Except.ok ⟨some []⟩
    else Except.error ("ENOENT: no such file or directory")

/-- Splitting never yields an empty list of parts. -/
theorem jsSplitDot_ne_nil (l : List Char) : jsSplitDot l ≠ [] := by
  cases l with
  | nil => simp [jsSplitDot]
  | cons c rest =>
    simp only [jsSplitDot]
    split
    · simp
    · split <;> simp

/-- Splitting a dot-free character list yields that list as the sole part. -/
theorem jsSplitDot_no_dot (l : List Char) (h : '.' ∉ l) : jsSplitDot l = [l] := by
  induction l with
  | nil => rfl
  | cons c rest ih =>
    have hc : ¬ c = '.' := fun e => h (by simp [e])
    have hr : '.' ∉ rest := fun m => h (List.mem_cons_of_mem _ m)
    simp only [jsSplitDot, if_neg hc, ih hr]

/-- The split of a list is always a cons. -/
theorem jsSplitDot_cons_exists (l : List Char) : ∃ h t, jsSplitDot l = h :: t := by
  cases e : jsSplitDot l with
  | nil => exact absurd e (jsSplitDot_ne_nil l)
  | cons a b => exact ⟨a, b, rfl⟩

/-- Splitting around the last dot: when the tail after a dot is dot-free, it
becomes the final part and the prefix splits independently. -/
theorem jsSplitDot_append_dot (xs ys : List Char) (h : '.' ∉ ys) :
    jsSplitDot (xs ++ '.' :: ys) = jsSplitDot xs ++ [ys] := by
  induction xs with
  | nil => simp [jsSplitDot, jsSplitDot_no_dot ys h]
  | cons c xs ih =>
    by_cases hc : c = '.'
    · subst hc
      simp [jsSplitDot, ih]
    · obtain ⟨h0, t0, e⟩ := jsSplitDot_cons_exists xs
      simp only [List.cons_append, jsSplitDot, if_neg hc, List.append_eq, ih, e,
        List.cons_append]

/-- Joining the parts of a split restores the original character list. -/
theorem joinDot_jsSplitDot (l : List Char) : joinDot (jsSplitDot l) = l := by
  induction l with
  | nil => rfl
  | cons c rest ih =>
    obtain ⟨h0, t0, e⟩ := jsSplitDot_cons_exists rest
    by_cases hc : c = '.'
    · subst hc
      rw [e] at ih
      simp only [jsSplitDot, if_pos rfl, e, joinDot]
      simpa using ih
    · simp only [jsSplitDot, if_neg hc, e]
      rw [e] at ih
      cases t0 with
      | nil =>
        simp only [joinDot] at ih ⊢
        rw [ih]
      | cons u v =>
        simp only [joinDot] at ih ⊢
        rw [List.cons_append, ih]

/-- Appending strings appends their character data. -/
theorem string_data_append (a b : String) : (a ++ b).data = a.data ++ b.data :=
  String.data_append ..

/-- Rebuilding a string from its character data is the identity. -/
theorem string_mk_data (s : String) : String.mk s.data = s := by
  cases s
  rfl

/-- C2 counterexample: the claim asserts that for every module path only the
final path segment is altered, but `addChainId` splits at the last dot of the
whole path, so on `a.b/mod` - whose final segment has no dot - the chain id
is spliced into the directory name `a.b`, and the directory part `a.b/` is no
longer a prefix of the result. -/
theorem addChainId_alters_directory_segment :
    addChainId ("a.b/mod") 137 = "a-137.b/mod" ∧
      List.isPrefixOf ("a.b/").data (addChainId ("a.b/mod") 137).data = false := by
  constructor
  · rfl
  · rfl

/-- C2 (amended): when the suffix after the last dot of the path is dot-free
(in particular whenever the final path segment has an extension),
`addChainId` inserts `-chainId` immediately before that last dot and leaves
the part before it - including every earlier segment - unaltered; the spec
examples `a/b.js` and `pkg/mod.js` with chain id 137 follow.  (On a path
whose final segment has no dot, the insertion point instead falls at the
last dot anywhere in the path, or the chain id is prepended when there is
no dot at all - see the counterexample.) -/
theorem addChainId_last_dot_insertion (pre ext : String) (cid : Nat) :
    ('.' ∉ ext.data →
      addChainId (pre ++ "." ++ ext) cid = pre ++ "-" ++ toString cid ++ "." ++ ext) ∧
    addChainId ("a/b.js") 137 = "a/b-137.js" ∧
    addChainId ("pkg/mod.js") 137 = "pkg/mod-137.js" := by
  refine ⟨fun h => ?_, rfl, rfl⟩
  have hdata : (pre ++ "." ++ ext).data = pre.data ++ '.' :: ext.data := by
    simp [string_data_append]
  simp only [addChainId, hdata, jsSplitDot_append_dot pre.data ext.data h,
    List.dropLast_concat, List.getLastD_concat, joinDot_jsSplitDot,
    string_mk_data]

/-- Witness for the amended C2 theorem: a path with dotted directory names
and a dot inside the final segment keeps everything before the extension
intact. -/
theorem addChainId_last_dot_insertion_witness :
    addChainId ("dir.v2/file.spec" ++ "." ++ "ts") 5
      = "dir.v2/file.spec" ++ "-" ++ toString 5 ++ "." ++ "ts" :=
  (addChainId_last_dot_insertion ("dir.v2/file.spec") ("ts") 5).1 (by decide)

/-- C1: module resolution first tries the chain-qualified variant of the
path of the descriptor and returns its loaded result whenever that require
succeeds; if that attempt fails for any reason it tries the base path,
resolved the same way, and returns its result when it loads; when both
attempts fail it throws the single error of line 166, naming the path and
whether it was treated as external or in-project. -/
theorem importModule_resolution (requireF : String → Option IgnitionModule)
    (resolve : String → String) (filename : String) (external : Bool) (chainId : Nat) :
    (∀ m, requireF (chainVariantTarget resolve filename external chainId) = some m →
      importModule requireF resolve filename external chainId = Except.ok m) ∧
    (requireF (chainVariantTarget resolve filename external chainId) = none →
      ∀ m, requireF (baseTarget resolve filename external) = some m →
        importModule requireF resolve filename external chainId = Except.ok m) ∧
    (requireF (chainVariantTarget resolve filename external chainId) = none →
      requireF (baseTarget resolve filename external) = none →
        importModule requireF resolve filename external chainId
          = Except.error (importErrorMessage filename external)) := by
  refine ⟨fun m hm => ?_, fun h1 m hm => ?_, fun h1 h2 => ?_⟩
  · simp [importModule, hm]
  · simp [importModule, h1, hm]
  · simp [importModule, h1, h2]

/-- Witness for C1 on the concrete fixtures: `Mod.js` has a chain-137
variant and resolution returns the module of that variant; `Base.js` has
none and resolution falls back to the base module; `None.js` has neither,
and the resulting error names the path as in-project. -/
theorem importModule_resolution_witness :
    importModule reqFix resolveFix ("ignition/modules/Mod.js") false 137
        = Except.ok ⟨some [⟨"A"⟩]⟩ ∧
    importModule reqFix resolveFix ("ignition/modules/Base.js") false 137
        = Except.ok ⟨some [⟨"C"⟩]⟩ ∧
    importModule reqFix resolveFix ("ignition/modules/None.js") false 137
        = Except.error (importErrorMessage ("ignition/modules/None.js") false) := by
  refine ⟨?_, ?_, ?_⟩
  · exact (importModule_resolution reqFix resolveFix ("ignition/modules/Mod.js")
      false 137).1 ⟨some [⟨"A"⟩]⟩ (by decide)
  · exact (importModule_resolution reqFix resolveFix ("ignition/modules/Base.js")
      false 137).2.1 (by decide) ⟨some [⟨"C"⟩]⟩ (by decide)
  · exact (importModule_resolution reqFix resolveFix ("ignition/modules/None.js")
      false 137).2.2 (by decide) (by decide)

/-- Pairing a list with its map associates each element with its image. -/
theorem zip_map_self {α β : Type} (f : α → β) (l : List α) :
    ∀ p ∈ List.zip l (l.map f), p.2 = f p.1 := by
  induction l with
  | nil => intro p hp; simp at hp
  | cons a rest ih =>
    intro p hp
    simp only [List.map_cons, List.zip_cons_cons, List.mem_cons] at hp
    cases hp with
    | inl e => rw [e]
    | inr m => exact ih p m

/-- C8: `listDeployEverythingModules` processes every registered descriptor
in order - the output is entry-for-entry aligned with the registry, so no
unloadable module aborts the listing - and whenever module resolution for
the active chain fails on an entry, that entry is reported with an empty
`moduleResults`.  The function is total and consumes the settings without
producing any saved registry, so the registry itself is never mutated. -/
theorem listDeployEverythingModules_swallows (requireF : String → Option IgnitionModule)
    (resolve : String → String) (settings : Settings) (chainId : Nat) :
    (listDeployEverythingModules requireF resolve settings chainId).length
        = settings.contents.length ∧
    ∀ p ∈ List.zip settings.contents
        (listDeployEverythingModules requireF resolve settings chainId),
      p.2.filename = p.1.filename ∧ p.2.external = p.1.external ∧
        ∀ msg, importModule requireF resolve p.1.filename p.1.external chainId
            = Except.error msg → p.2.moduleResults = [] := by
  constructor
  · simp [listDeployEverythingModules]
  · intro p hp
    have h2 := zip_map_self (listedEntry requireF resolve chainId) settings.contents p hp
    refine ⟨by rw [h2]; rfl, by rw [h2]; rfl, fun msg hmsg => ?_⟩
    rw [h2]
    simp [listedEntry, hmsg]

/-- Witness for C8: a two-entry registry in which the second module is
unloadable still lists both entries, the broken one with empty results. -/
theorem listDeployEverythingModules_swallows_witness :
    (listDeployEverythingModules reqFix resolveFix
        ⟨[⟨"ignition/modules/Mod.js", false⟩, ⟨"ignition/modules/None.js", false⟩]⟩
        137).length = 2 ∧
    (⟨⟨"ignition/modules/None.js", false⟩, ⟨"ignition/modules/None.js", false, ["x"]⟩⟩ ∈
        List.zip (⟨[⟨"ignition/modules/Mod.js", false⟩, ⟨"ignition/modules/None.js", false⟩]⟩ :
            Settings).contents
          (listDeployEverythingModules reqFix resolveFix
            ⟨[⟨"ignition/modules/Mod.js", false⟩, ⟨"ignition/modules/None.js", false⟩]⟩ 137) →
      False) := by
  constructor
  · exact (listDeployEverythingModules_swallows reqFix resolveFix
      ⟨[⟨"ignition/modules/Mod.js", false⟩, ⟨"ignition/modules/None.js", false⟩]⟩ 137).1
  · intro hmem
    have h := (listDeployEverythingModules_swallows reqFix resolveFix
      ⟨[⟨"ignition/modules/Mod.js", false⟩, ⟨"ignition/modules/None.js", false⟩]⟩ 137).2
      _ hmem
    have hempty := h.2.2 (importErrorMessage ("ignition/modules/None.js") false) (by rfl)
    simp at hempty

/-- A list with no entry satisfying the predicate has no found index. -/
theorem findIdx?_eq_none_of_any_false (p : Entry → Bool) (l : List Entry)
    (h : l.any p = false) : l.findIdx? p = none := by
  rw [List.findIdx?_eq_none_iff]
  intro x hx
  simpa using List.any_eq_false.mp h x hx

/-- Finding in a list whose only match is the appended last element yields
the index of that element, at any start offset. -/
theorem findIdx?_append_singleton_go (p : Entry → Bool) (x : Entry) (hx : p x = true) :
    ∀ (l : List Entry), l.any p = false →
      ∀ i, List.findIdx? p (l ++ [x]) i = some (i + l.length) := by
  intro l
  induction l with
  | nil =>
    intro _ i
    simp [List.findIdx?_cons, hx]
  | cons a rest ih =>
    intro h i
    simp only [List.any_cons, Bool.or_eq_false_iff] at h
    rw [List.cons_append, List.findIdx?_cons, if_neg (by simp [h.1]), ih h.2]
    simp only [List.length_cons]
    congr 1
    omega

/-- Erasing at the index of an appended last element restores the list. -/
theorem eraseIdx_append_length (l : List Entry) (x : Entry) :
    (l ++ [x]).eraseIdx l.length = l := by
  rw [List.eraseIdx_append_of_length_le (Nat.le_refl _) [x]]
  simp

/-- When validation passes, `addDeployEverythingModule` reaches the registry
step with the computed identity key. -/
theorem add_reaches_registry (env : Env) (contents : List Entry) (file : String)
    (external : Bool) (hv : addValidationOk env file external = true) :
    addDeployEverythingModule env ⟨contents⟩ file external
      = addModuleToSettings ⟨contents⟩ (moduleKeyOf env file external) external file := by
  cases external with
  | false =>
    rw [show addValidationOk env file false
        = ((env.normalize file).stripped
            && env.canRequire (env.projectRoot ++ "/" ++ (env.normalize file).file)) from rfl,
      Bool.and_eq_true] at hv
    simp [addDeployEverythingModule, moduleKeyOf, hv.1, hv.2]
  | true =>
    rw [show addValidationOk env file true
        = (!startsWithSlash file && env.canRequire file) from rfl,
      Bool.and_eq_true, Bool.not_eq_true'] at hv
    simp [addDeployEverythingModule, moduleKeyOf, hv.1, hv.2]

/-- A validated add with a fresh identity key appends the entry and saves. -/
theorem add_ok (env : Env) (contents : List Entry) (file : String) (external : Bool)
    (hv : addValidationOk env file external = true)
    (hk : hasModuleKey contents (moduleKeyOf env file external) external = false) :
    addDeployEverythingModule env ⟨contents⟩ file external
      = Except.ok ⟨contents ++ [⟨moduleKeyOf env file external, external⟩]⟩ := by
  rw [add_reaches_registry env contents file external hv]
  simp [addModuleToSettings, hk]

/-- A validated add with a present identity key throws the duplicate error. -/
theorem add_dup (env : Env) (contents : List Entry) (file : String) (external : Bool)
    (hv : addValidationOk env file external = true)
    (hk : hasModuleKey contents (moduleKeyOf env file external) external = true) :
    addDeployEverythingModule env ⟨contents⟩ file external
      = Except.error ("The module is already added to the full deployment: " ++ file ++ ".") := by
  rw [add_reaches_registry env contents file external hv]
  simp [addModuleToSettings, hk]

/-- A remove whose identity key is absent throws the not-registered error. -/
theorem remove_missing (env : Env) (contents : List Entry) (file : String) (external : Bool)
    (hk : hasModuleKey contents (moduleKeyOf env file external) external = false) :
    removeDeployEverythingModule env ⟨contents⟩ file external
      = Except.error ("The module is not added to the full deployment: " ++ file ++ ".") := by
  unfold hasModuleKey at hk
  simp [removeDeployEverythingModule, findIdx?_eq_none_of_any_false _ _ hk]

/-- A remove whose identity key is found at index `i` erases exactly that
entry and saves. -/
theorem remove_found (env : Env) (contents : List Entry) (file : String) (external : Bool)
    (i : Nat)
    (hf : contents.findIdx?
        (fun e => e.filename == moduleKeyOf env file external && e.external == external)
        = some i) :
    removeDeployEverythingModule env ⟨contents⟩ file external
      = Except.ok ⟨contents.eraseIdx i⟩ := by
  simp [removeDeployEverythingModule, hf]

/-- C5: for every registry state, a validated add of a `(path, external)`
identity key already present fails with the already-registered error, and a
remove of an identity key not present fails with the not-registered error;
in both cases the function throws before `saveDeployEverythingSettings`, so
the `Except.error` result carries no settings and the persisted registry is
untouched. -/
theorem registry_state_errors (env : Env) (contents : List Entry) (file : String)
    (external : Bool) :
    (addValidationOk env file external = true →
      hasModuleKey contents (moduleKeyOf env file external) external = true →
      addDeployEverythingModule env ⟨contents⟩ file external
        = Except.error ("The module is already added to the full deployment: " ++ file ++ ".")) ∧
    (hasModuleKey contents (moduleKeyOf env file external) external = false →
      removeDeployEverythingModule env ⟨contents⟩ file external
        = Except.error ("The module is not added to the full deployment: " ++ file ++ ".")) :=
  ⟨fun hv hk => add_dup env contents file external hv hk,
   fun hk => remove_missing env contents file external hk⟩

/-- Witness for C5: re-adding the registered `pkg/a.js` fails with the
duplicate error and removing the absent `pkg/b.js` fails with the
not-registered error. -/
theorem registry_state_errors_witness :
    addDeployEverythingModule envFix ⟨[⟨"pkg/a.js", true⟩]⟩ ("pkg/a.js") true
        = Except.error ("The module is already added to the full deployment: pkg/a.js.") ∧
    removeDeployEverythingModule envFix ⟨[⟨"pkg/a.js", true⟩]⟩ ("pkg/b.js") true
        = Except.error ("The module is not added to the full deployment: pkg/b.js.") :=
  ⟨(registry_state_errors envFix [⟨"pkg/a.js", true⟩] ("pkg/a.js") true).1
      (by decide) (by decide),
   (registry_state_errors envFix [⟨"pkg/a.js", true⟩] ("pkg/b.js") true).2 (by decide)⟩

/-- C6: add appends the new descriptor at the end of the registry and remove
deletes exactly the matching entry in place (the survivors are the prefix
before it followed by the suffix after it, in order); consequently adding
A, B, C in that order, then removing B and re-adding B, yields the order
A, C, B. -/
theorem registry_append_erase_order (env : Env) (contents : List Entry) (file : String)
    (external : Bool) (i : Nat) (a b c : String) :
    (addValidationOk env file external = true →
      hasModuleKey contents (moduleKeyOf env file external) external = false →
      addDeployEverythingModule env ⟨contents⟩ file external
        = Except.ok ⟨contents ++ [⟨moduleKeyOf env file external, external⟩]⟩) ∧
    (contents.findIdx?
        (fun e => e.filename == moduleKeyOf env file external && e.external == external)
        = some i →
      removeDeployEverythingModule env ⟨contents⟩ file external
        = Except.ok ⟨contents.take i ++ contents.drop (i + 1)⟩) ∧
    (addValidationOk env a true = true → addValidationOk env b true = true →
     addValidationOk env c true = true → a ≠ b → a ≠ c → b ≠ c →
      addDeployEverythingModule env ⟨[]⟩ a true = Except.ok ⟨[⟨a, true⟩]⟩ ∧
      addDeployEverythingModule env ⟨[⟨a, true⟩]⟩ b true
        = Except.ok ⟨[⟨a, true⟩, ⟨b, true⟩]⟩ ∧
      addDeployEverythingModule env ⟨[⟨a, true⟩, ⟨b, true⟩]⟩ c true
        = Except.ok ⟨[⟨a, true⟩, ⟨b, true⟩, ⟨c, true⟩]⟩ ∧
      removeDeployEverythingModule env ⟨[⟨a, true⟩, ⟨b, true⟩, ⟨c, true⟩]⟩ b true
        = Except.ok ⟨[⟨a, true⟩, ⟨c, true⟩]⟩ ∧
      addDeployEverythingModule env ⟨[⟨a, true⟩, ⟨c, true⟩]⟩ b true
        = Except.ok ⟨[⟨a, true⟩, ⟨c, true⟩, ⟨b, true⟩]⟩) := by
  refine ⟨fun hv hk => add_ok env contents file external hv hk, fun hf => ?_,
    fun hva hvb hvc hab hac hbc => ?_⟩
  · rw [remove_found env contents file external i hf, List.eraseIdx_eq_take_drop_succ]
  · refine ⟨?_, ?_, ?_, ?_, ?_⟩
    · simpa [moduleKeyOf] using add_ok env [] a true hva (by rfl)
    · simpa [moduleKeyOf] using add_ok env [⟨a, true⟩] b true hvb
        (by simp [hasModuleKey, moduleKeyOf, hab])
    · simpa [moduleKeyOf] using add_ok env [⟨a, true⟩, ⟨b, true⟩] c true hvc
        (by simp [hasModuleKey, moduleKeyOf, hac, hbc])
    · rw [remove_found env [⟨a, true⟩, ⟨b, true⟩, ⟨c, true⟩] b true 1
        (by simp [List.findIdx?_cons, moduleKeyOf, hab, Ne.symm hbc])]
      rfl
    · simpa [moduleKeyOf] using add_ok env [⟨a, true⟩, ⟨c, true⟩] b true hvb
        (by simp [hasModuleKey, moduleKeyOf, hab, Ne.symm hbc])

/-- Witness for C6: on concrete external paths, add appends, remove erases in
place, and the A, B, C scenario ends in the order A, C, B. -/
theorem registry_append_erase_order_witness :
    addDeployEverythingModule envFix ⟨[]⟩ ("x.js") true
        = Except.ok ⟨[⟨"x.js", true⟩]⟩ ∧
    removeDeployEverythingModule envFix ⟨[⟨"y.js", true⟩]⟩ ("y.js") true
        = Except.ok ⟨[]⟩ ∧
    addDeployEverythingModule envFix ⟨[⟨"A.js", true⟩, ⟨"C.js", true⟩]⟩ ("B.js") true
        = Except.ok ⟨[⟨"A.js", true⟩, ⟨"C.js", true⟩, ⟨"B.js", true⟩]⟩ := by
  refine ⟨?_, ?_, ?_⟩
  · simpa using (registry_append_erase_order envFix [] ("x.js") true 0 ("A.js") ("B.js")
      ("C.js")).1 (by decide) (by decide)
  · simpa using (registry_append_erase_order envFix [⟨"y.js", true⟩] ("y.js") true 0
      ("A.js") ("B.js") ("C.js")).2.1 (by decide)
  · exact ((registry_append_erase_order envFix [] ("B.js") true 0 ("A.js") ("B.js")
      ("C.js")).2.2 (by decide) (by decide) (by decide) (by decide) (by decide)
      (by decide)).2.2.2.2

/-- C7: a successful add of a fresh `(path, external)` key followed by a
remove of the same key restores the registry to its prior content and order:
the appended entry is the sole match, and erasing it leaves every other
entry in place. -/
theorem add_remove_roundtrip (env : Env) (contents : List Entry) (file : String)
    (external : Bool) (hv : addValidationOk env file external = true)
    (hk : hasModuleKey contents (moduleKeyOf env file external) external = false) :
    (addDeployEverythingModule env ⟨contents⟩ file external).bind
      (fun s => removeDeployEverythingModule env s file external) = Except.ok ⟨contents⟩ := by
  rw [add_ok env contents file external hv hk]
  show removeDeployEverythingModule env
      ⟨contents ++ [⟨moduleKeyOf env file external, external⟩]⟩ file external
    = Except.ok ⟨contents⟩
  have hf := findIdx?_append_singleton_go
    (fun e => e.filename == moduleKeyOf env file external && e.external == external)
    ⟨moduleKeyOf env file external, external⟩ (by simp) contents
    (by simpa [hasModuleKey] using hk) 0
  rw [remove_found env _ file external contents.length (by simpa using hf),
    eraseIdx_append_length]

/-- Witness for C7: adding the fresh `new.js` to a one-entry registry and
removing it again restores the original registry. -/
theorem add_remove_roundtrip_witness :
    (addDeployEverythingModule envFix ⟨[⟨"other.js", true⟩]⟩ ("new.js") true).bind
        (fun s => removeDeployEverythingModule envFix s ("new.js") true)
      = Except.ok ⟨[⟨"other.js", true⟩]⟩ :=
  add_remove_roundtrip envFix [⟨"other.js", true⟩] ("new.js") true (by decide) (by decide)

/-- When every entry imports and deploys successfully, the driver loop emits
exactly one deploy call per registry entry, in registry order, and no
error. -/
theorem runModulesLoop_all_ok (requireF : String → Option IgnitionModule)
    (resolve : String → String) (chainId : Nat) (engine : IgnitionModule → Except String Unit)
    (mf : Entry → IgnitionModule) :
    ∀ (contents : List Entry),
      (∀ e ∈ contents,
        importModule requireF resolve e.filename e.external chainId = Except.ok (mf e)) →
      (∀ e ∈ contents, engine (mf e) = Except.ok ()) →
      runModulesLoop requireF resolve chainId engine
          (contents.map (listedEntry requireF resolve chainId))
        = (contents.map (fun e => EngineEvent.deploy (mf e)), none) := by
  intro contents
  induction contents with
  | nil => intro _ _; rfl
  | cons e rest ih =>
    intro h1 h2
    have he := h1 e (by simp)
    have hee := h2 e (by simp)
    simp only [List.map_cons, runModulesLoop]
    rw [show (listedEntry requireF resolve chainId e).filename = e.filename from rfl,
      show (listedEntry requireF resolve chainId e).external = e.external from rfl, he]
    simp [hee, ih (fun x hx => h1 x (by simp [hx])) (fun x hx => h2 x (by simp [hx]))]

/-- C3: when the reset flag is set the journal-reset call is the very first
engine call of the run, before any deploy; and when every registered module
modules import and deploy successfully, the engine-call trace is exactly the
optional reset followed by one awaited deploy call per registry entry, in
registry (insertion) order, with no error - the loop only reaches a module
after the engine call of the previous module has completed. -/
theorem runDeployEverythingModules_sequential (requireF : String → Option IgnitionModule)
    (resolve : String → String) (settings : Settings) (chainId : Nat) (reset : Bool)
    (engine : IgnitionModule → Except String Unit) (mf : Entry → IgnitionModule) :
    (reset = true →
      (runDeployEverythingModules requireF resolve settings chainId reset engine).1.head?
        = some EngineEvent.reset) ∧
    ((∀ e ∈ settings.contents,
        importModule requireF resolve e.filename e.external chainId = Except.ok (mf e)) →
     (∀ e ∈ settings.contents, engine (mf e) = Except.ok ()) →
      runDeployEverythingModules requireF resolve settings chainId reset engine
        = ((if reset then [EngineEvent.reset] else []) ++
            settings.contents.map (fun e => EngineEvent.deploy (mf e)), none)) := by
  constructor
  · intro hr
    subst hr
    rfl
  · intro h1 h2
    have hl := runModulesLoop_all_ok requireF resolve chainId engine mf settings.contents h1 h2
    simp [runDeployEverythingModules, listDeployEverythingModules, hl]

/-- Witness for C3: a two-entry registry run with the reset flag produces the
reset call first and then the two deploy calls in registry order, using the
module of the chain-137 variant for the first entry. -/
theorem runDeployEverythingModules_sequential_witness :
    runDeployEverythingModules reqFix resolveFix
        ⟨[⟨"ignition/modules/Mod.js", false⟩, ⟨"ignition/modules/Base.js", false⟩]⟩ 137 true
        (fun _ => Except.ok ())
      = ([EngineEvent.reset, EngineEvent.deploy ⟨some [⟨"A"⟩]⟩,
          EngineEvent.deploy ⟨some [⟨"C"⟩]⟩], none) := by
  have h := (runDeployEverythingModules_sequential reqFix resolveFix
      ⟨[⟨"ignition/modules/Mod.js", false⟩, ⟨"ignition/modules/Base.js", false⟩]⟩ 137 true
      (fun _ => Except.ok ())
      (fun e => if e.filename == "ignition/modules/Mod.js" then ⟨some [⟨"A"⟩]⟩
        else ⟨some [⟨"C"⟩]⟩)).2
      (by
        intro e he
        simp only [List.mem_cons, List.not_mem_nil, or_false] at he
        rcases he with rfl | rfl
        · rfl
        · rfl)
      (fun _ _ => rfl)
  exact h.trans (by rfl)

/-- C4: a missing manifest file, or one whose contents fail to parse, loads
as the empty registry instead of raising; listing that registry reports no
entries, and running it issues no deploy call to the engine. -/
theorem loadDeployEverythingSettings_missing (parse : String → Option Settings)
    (requireF : String → Option IgnitionModule) (resolve : String → String)
    (chainId : Nat) (reset : Bool) (engine : IgnitionModule → Except String Unit) :
    loadDeployEverythingSettings none parse = ⟨[]⟩ ∧
    (∀ content, parse content = none →
      loadDeployEverythingSettings (some content) parse = ⟨[]⟩) ∧
    listDeployEverythingModules requireF resolve (loadDeployEverythingSettings none parse)
        chainId = [] ∧
    (∀ m, EngineEvent.deploy m ∉
      (runDeployEverythingModules requireF resolve (loadDeployEverythingSettings none parse)
        chainId reset engine).1) := by
  refine ⟨rfl, fun content hc => ?_, rfl, fun m hm => ?_⟩
  · simp [loadDeployEverythingSettings, hc]
  · cases reset with
    | false =>
      simp [runDeployEverythingModules, runModulesLoop, listDeployEverythingModules,
        loadDeployEverythingSettings] at hm
    | true =>
      simp [runDeployEverythingModules, runModulesLoop, listDeployEverythingModules,
        loadDeployEverythingSettings] at hm

/-- Witness for C4: an unparseable manifest body loads as the empty registry,
and a reset run over the missing manifest contains no deploy call. -/
theorem loadDeployEverythingSettings_missing_witness :
    loadDeployEverythingSettings (some ("not json")) (fun _ => none) = ⟨[]⟩ ∧
    (EngineEvent.deploy ⟨none⟩ ∈
        (runDeployEverythingModules reqFix resolveFix
          (loadDeployEverythingSettings none (fun _ => none)) 137 true
          (fun _ => Except.ok ())).1 → False) := by
  constructor
  · exact (loadDeployEverythingSettings_missing (fun _ => none) reqFix resolveFix 137 true
      (fun _ => Except.ok ())).2.1 ("not json") rfl
  · exact fun hm => (loadDeployEverythingSettings_missing (fun _ => none) reqFix resolveFix
      137 true (fun _ => Except.ok ())).2.2.2 ⟨none⟩ hm

/-- C9 (code bug): `getDeployedContract` defaults the deployment id to the
chain-derived one, fails with the not-deployed `Error` when no address is
recorded, and returns a handle when both an address and a non-empty abi
exist; but on a missing or empty abi it does NOT fail with the documented
corrupted-contract-data `Error`: lines 301-305 juxtapose the five template
literals of the message without `+`, so the argument of `new Error` evaluates as a
tagged-template call on a string and a `TypeError` propagates instead.  The
last conjunct records that the failure on the corrupted branch is never an
`Error` object at all. -/
theorem getDeployedContract_corrupted_branch :
    getDeployedContract addrFix artFix 137 (some ("dep")) ("Broken")
        = Except.error (JsThrow.typeErr (corruptedChunk ("Broken"))) ∧
    getDeployedContract addrFix artFix 137 (some ("dep")) ("EmptyAbi")
        = Except.error (JsThrow.typeErr (corruptedChunk ("EmptyAbi"))) ∧
    getDeployedContract addrFix artFix 137 (some ("dep")) ("Nope")
        = Except.error (JsThrow.errObj (notDeployedMessage ("Nope") ("dep"))) ∧
    getDeployedContract addrFix artFix 137 none ("Anything")
        = Except.error (JsThrow.errObj (notDeployedMessage ("Anything") ("chain-137"))) ∧
    getDeployedContract addrFix artFix 137 (some ("dep")) ("Good")
        = Except.ok ⟨["functionEntry"], "0xabc"⟩ ∧
    ∀ msg, getDeployedContract addrFix artFix 137 (some ("dep")) ("Broken")
        ≠ Except.error (JsThrow.errObj msg) := by
  refine ⟨rfl, rfl, rfl, rfl, rfl, fun msg h => ?_⟩
  rw [show getDeployedContract addrFix artFix 137 (some ("dep")) ("Broken")
      = Except.error (JsThrow.typeErr (corruptedChunk ("Broken"))) from rfl] at h
  simp at h

/-- C10: when reading or parsing the per-deployment `deployed_addresses.json`
fails, `listDeployedContracts` propagates that very failure as a hard error,
while `getDeployedContract` swallows it, treats the address map as empty and
reports the not-deployed error for every contract id. -/
theorem deployedAddresses_read_failure
    (readAddrs : String → Except String (List (String × String)))
    (readArt : String → String → Except String Artifact) (chainId : Nat)
    (deploymentId : Option String) (contractId : String) (e : String)
    (h : readAddrs (jsDefaultDeploymentId deploymentId chainId) = Except.error e) :
    listDeployedContracts readAddrs chainId deploymentId = Except.error e ∧
    getDeployedContract readAddrs readArt chainId deploymentId contractId
      = Except.error (JsThrow.errObj
          (notDeployedMessage contractId (jsDefaultDeploymentId deploymentId chainId))) := by
  constructor
  · simp [listDeployedContracts, h]
  · simp [getDeployedContract, h, jsLookup]

/-- Witness for C10: the unreadable deployment id `other` makes listing fail
with the read error while contract lookup reports not-deployed. -/
theorem deployedAddresses_read_failure_witness :
    listDeployedContracts addrFix 137 (some ("other"))
        = Except.error ("ENOENT: no such file or directory") ∧
    getDeployedContract addrFix artFix 137 (some ("other")) ("X")
        = Except.error (JsThrow.errObj (notDeployedMessage ("X") ("other"))) :=
  deployedAddresses_read_failure addrFix artFix 137 (some ("other")) ("X")
    ("ENOENT: no such file or directory") (by rfl)
